import Mathlib

/-!
Verification of the JSON-Patch pipeline of the `AI_json_editor` repository
(`src/app.py`).

The repository's own code is the Streamlit/LangGraph glue in `app.py`:
the validator `validate_patch_ops`, the graph nodes `generate_patch`,
`judge`, `apply_patch`, the router `_route`, and the graph wiring in
`build_graph`.  The RFC 6902 engine itself is the external `jsonpatch`
library (called as `jsonpatch.apply_patch(src, ops, in_place=False)`),
whose code is not part of the repository; it is modelled here from the
specification (§4.1 Pointer Resolver, §4.2 Patch Engine).

JSON documents are modelled by the recursive sum type `JsonValue` with
insertion-ordered association lists for objects and `Int` numbers
(floating point is outside the claims considered here).
-/

set_option autoImplicit false

namespace AIJsonEditor

/-- A JSON value: null, boolean, number, string, ordered array, or
insertion-ordered object (association list from string keys). -/
inductive JsonValue where
  | null
  | bool (b : Bool)
  | num (n : Int)
  | str (s : String)
  | arr (elems : List JsonValue)
  | obj (fields : List (String × JsonValue))

namespace JsonValue

/-- First value bound to key `k` in an association list, if any. -/
def lookupKey : List (String × JsonValue) → String → Option JsonValue
  | [], _ => none
  | (k, v) :: rest, key => if k = key then some v else lookupKey rest key

/-- Whether key `k` occurs in an association list. -/
def hasKey (kvs : List (String × JsonValue)) (key : String) : Bool :=
  (lookupKey kvs key).isSome

/-- Set key `k` to `v`: overwrite in place when present (preserving the
key's position), otherwise append at the end (insertion order). -/
def setKey : List (String × JsonValue) → String → JsonValue → List (String × JsonValue)
  | [], key, v => [(key, v)]
  | (k, w) :: rest, key, v =>
      if k = key then (k, v) :: rest else (k, w) :: setKey rest key v

/-- Delete the first binding of key `k` from an association list. -/
def removeKey : List (String × JsonValue) → String → List (String × JsonValue)
  | [], _ => []
  | (k, w) :: rest, key => if k = key then rest else (k, w) :: removeKey rest key

/-- Python truthiness of a JSON value, as used by `judge` and `_route` on
`state.get("patch_ops")`: empty containers, empty strings, zero and
`null`/`False` are falsy. -/
def truthy : JsonValue → Bool
  | .null => false
  | .bool b => b
  | .num n => n != 0
  | .str s => !s.isEmpty
  | .arr elems => !elems.isEmpty
  | .obj fields => !fields.isEmpty

/-- Field access on a JSON mapping; `none` when the value is not a
mapping or the key is absent. -/
def getField (v : JsonValue) (key : String) : Option JsonValue :=
  match v with
  | .obj kvs => lookupKey kvs key
  | _ => none

end JsonValue

open JsonValue

/-! ## The structural validator of `src/app.py` (`validate_patch_ops`) -/

/-- Error message of `validate_patch_ops` when the patch is not an array
(the Python f-strings are reproduced literally). -/
def msgNotArray : String := "패치가 배열(JSON Patch operations array)가 아닙니다."

/-- Error message for an element that is not a mapping with `op` and `path`. -/
def msgBadElem (i : Nat) : String :=
  toString i ++ "번째 연산이 잘못되었습니다: 최소 'op'와 'path'가 필요합니다."

/-- Error message for an `add`/`replace`/`test` element without `value`. -/
def msgNoValue (i : Nat) (opName : String) : String :=
  toString i ++ "번째 '" ++ opName ++ "' 연산에 'value'가 없습니다."

/-- Error message for a `move`/`copy` element without `from`. -/
def msgNoFrom (i : Nat) (opName : String) : String :=
  toString i ++ "번째 '" ++ opName ++ "' 연산에 'from'이 없습니다."

/-- One iteration of the `for i, op in enumerate(ops)` loop body of
`validate_patch_ops`: the check applied to element `op` at index `i`,
returning the error message the Python code would return, if any.
Note the code places no constraint on unknown `op` kinds: the
membership tests `op["op"] in ("add","replace","test")` and
`op["op"] in ("move","copy")` simply fail for any other value. -/
def validateElem (i : Nat) (op : JsonValue) : Option String :=
  match op with
  | .obj kvs =>
      if hasKey kvs "op" && hasKey kvs "path" then
        match lookupKey kvs "op" with
        | some (.str s) =>
            if (s = "add" || s = "replace" || s = "test") && !hasKey kvs "value" then
              some (msgNoValue i s)
            else if (s = "move" || s = "copy") && !hasKey kvs "from" then
              some (msgNoFrom i s)
            else none
        | _ => none
      else some (msgBadElem i)
  | _ => some (msgBadElem i)

/-- The loop of `validate_patch_ops`: first failing element wins. -/
def validateLoop : List JsonValue → Nat → Option String
  | [], _ => none
  | op :: rest, i =>
      match validateElem i op with
      | some msg => some msg
      | none => validateLoop rest (i + 1)

/-- `validate_patch_ops` from `src/app.py`: `None` (here `none`) means the
operations array passed the structural check. -/
def validate_patch_ops (ops : JsonValue) : Option String :=
  match ops with
  | .arr elems => validateLoop elems 0
  | _ => some msgNotArray

/-! ## The patch engine, modelled from the specification

`apply_patch` in `src/app.py` delegates the actual RFC 6902 application to
`jsonpatch.apply_patch(src, ops, in_place=False)`; the engine's code is a
library dependency and not in the repository, so it is modelled from the
specification (§4.1 Pointer Resolver, §4.2 Patch Engine, §7 error
taxonomy). -/

/-- Modelled from the spec: the closed error taxonomy of §7 for the patch
engine that is missing from `src/` (it lives in the external `jsonpatch`
library). -/
inductive ErrKind where
  | MalformedPatch
  | PointerNotFound
  | KeyNotFound
  | IndexOutOfRange
  | InvalidIndex
  | NotContainer
  | RootHasNoParent
  | InvalidMove
  | TestFailed
  deriving DecidableEq, Repr

/-- An engine-level error before it is tagged with the operation index:
a kind from the closed taxonomy plus a human-readable detail string. -/
structure EngineErr where
  kind : ErrKind
  detail : String
  deriving DecidableEq, Repr

/-- A structured patch failure: the 0-based index of the failing
operation (`none` for whole-patch structural errors on a non-array),
the error kind, and the detail string (§6 output contract). -/
structure PatchFailure where
  index : Option Nat
  kind : ErrKind
  detail : String
  deriving DecidableEq, Repr

/-- Split a character list on `/` separators (the body of an RFC 6901
pointer after its leading slash). -/
def splitTokens : List Char → List (List Char)
  | [] => [[]]
  | c :: cs =>
      if c = '/' then [] :: splitTokens cs
      else
        match splitTokens cs with
        | t :: ts => (c :: t) :: ts
        | [] => [[c]]

/-- Modelled from the spec: RFC 6901 token unescaping, reversing
`~1` → `/` and `~0` → `~` (the Pointer Resolver is not in `src/`). -/
def unescapeChars : List Char → List Char
  | [] => []
  | '~' :: '0' :: cs => '~' :: unescapeChars cs
  | '~' :: '1' :: cs => '/' :: unescapeChars cs
  | c :: cs => c :: unescapeChars cs

/-- Modelled from the spec: parse an RFC 6901 JSON Pointer string into its
decoded reference tokens; `none` when the string neither is empty nor
starts with `/`. -/
def parsePointer (s : String) : Option (List String) :=
  match s.data with
  | [] => some []
  | '/' :: rest => some ((splitTokens rest).map (fun t => String.mk (unescapeChars t)))
  | _ => none

/-- Accumulate decimal digits into a natural number. -/
def digitsToNat : List Char → Nat → Nat
  | [], acc => acc
  | c :: cs, acc => digitsToNat cs (acc * 10 + (c.toNat - 48))

/-- Modelled from the spec: parse a reference token as a base-10
non-negative array index with no leading zeros except `"0"` itself
(§4.1); `none` for a malformed index (including `-`). -/
def parseIndex : List Char → Option Nat
  | [] => none
  | ['0'] => some 0
  | '0' :: _ :: _ => none
  | t => if t.all Char.isDigit then some (digitsToNat t 0) else none

/-- Insert a value at position `i` of a list, shifting later elements
right; positions past the end append (callers bound-check first). -/
def insertIdxList : Nat → JsonValue → List JsonValue → List JsonValue
  | 0, v, xs => v :: xs
  | _ + 1, v, [] => [v]
  | n + 1, v, x :: xs => x :: insertIdxList n v xs

/-- Modelled from the spec: `resolve(doc, pointer)` of §4.1 — follow the
tokens from the root; mapping tokens are key lookups (`PointerNotFound`
when absent), sequence tokens are strict non-negative indices
(`InvalidIndex` when malformed or out of bounds), scalars fail with
`NotContainer`; the empty pointer returns the whole document. -/
def resolve : JsonValue → List String → Except EngineErr JsonValue
  | doc, [] => .ok doc
  | .obj kvs, t :: ts =>
      match lookupKey kvs t with
      | some v => resolve v ts
      | none => .error ⟨.PointerNotFound, "pointer token not found: " ++ t⟩
  | .arr xs, t :: ts =>
      match parseIndex t.data with
      | some i =>
          if h : i < xs.length then resolve (xs.get ⟨i, h⟩) ts
          else .error ⟨.InvalidIndex, "array index out of bounds: " ++ t⟩
      | none => .error ⟨.InvalidIndex, "invalid array index: " ++ t⟩
  | _, _ :: _ => .error ⟨.NotContainer, "cannot traverse a scalar value"⟩

/-- Modelled from the spec: `resolveParent` fused with the write
primitive (§4.1) — navigate to the parent container of the pointer's
last token, run the primitive `act` there, and rebuild the document
around the result. The empty pointer fails with `RootHasNoParent`. -/
def withParent (doc : JsonValue) : List String → (JsonValue → String → Except EngineErr JsonValue) → Except EngineErr JsonValue
  | [], _ => .error ⟨.RootHasNoParent, "the document root has no parent"⟩
  | [t], act => act doc t
  | t :: t2 :: ts, act =>
      match doc with
      | .obj kvs =>
          match lookupKey kvs t with
          | some child =>
              (withParent child (t2 :: ts) act).map (fun c => .obj (setKey kvs t c))
          | none => .error ⟨.PointerNotFound, "pointer token not found: " ++ t⟩
      | .arr xs =>
          match parseIndex t.data with
          | some i =>
              if h : i < xs.length then
                (withParent (xs.get ⟨i, h⟩) (t2 :: ts) act).map (fun c => .arr (xs.set i c))
              else .error ⟨.InvalidIndex, "array index out of bounds: " ++ t⟩
          | none => .error ⟨.InvalidIndex, "invalid array index: " ++ t⟩
      | _ => .error ⟨.NotContainer, "cannot traverse a scalar value"⟩

/-- Modelled from the spec: the `insertAt` write primitive (§4.1) —
objects set the key (creating or overwriting); arrays insert at the index
shifting right, append on `-`, and fail `IndexOutOfRange` when the index
exceeds the length. -/
def insertAtC (value : JsonValue) (container : JsonValue) (token : String) : Except EngineErr JsonValue :=
  match container with
  | .obj kvs => .ok (.obj (setKey kvs token value))
  | .arr xs =>
      if token = "-" then .ok (.arr (xs ++ [value]))
      else
        match parseIndex token.data with
        | some i =>
            if i ≤ xs.length then .ok (.arr (insertIdxList i value xs))
            else .error ⟨.IndexOutOfRange, "array insert index beyond end: " ++ token⟩
        | none => .error ⟨.InvalidIndex, "invalid array index: " ++ token⟩
  | _ => .error ⟨.NotContainer, "cannot insert into a scalar value"⟩

/-- Modelled from the spec: the `removeAt` write primitive (§4.1) —
objects delete the key (`KeyNotFound` when absent); arrays remove at the
index shifting left (`IndexOutOfRange` when the index is not below the
length). -/
def removeAtC (container : JsonValue) (token : String) : Except EngineErr JsonValue :=
  match container with
  | .obj kvs =>
      if hasKey kvs token then .ok (.obj (removeKey kvs token))
      else .error ⟨.KeyNotFound, "key not found: " ++ token⟩
  | .arr xs =>
      match parseIndex token.data with
      | some i =>
          if i < xs.length then .ok (.arr (xs.eraseIdx i))
          else .error ⟨.IndexOutOfRange, "array index out of range: " ++ token⟩
      | none => .error ⟨.InvalidIndex, "invalid array index: " ++ token⟩
  | _ => .error ⟨.NotContainer, "cannot remove from a scalar value"⟩

/-- Modelled from the spec: the `replaceAt` write primitive (§4.1) —
objects overwrite an existing key only (`KeyNotFound` when absent);
arrays overwrite in bounds, with `-` not permitted. -/
def replaceAtC (value : JsonValue) (container : JsonValue) (token : String) : Except EngineErr JsonValue :=
  match container with
  | .obj kvs =>
      if hasKey kvs token then .ok (.obj (setKey kvs token value))
      else .error ⟨.KeyNotFound, "key not found: " ++ token⟩
  | .arr xs =>
      match parseIndex token.data with
      | some i =>
          if i < xs.length then .ok (.arr (xs.set i value))
          else .error ⟨.IndexOutOfRange, "array index out of range: " ++ token⟩
      | none => .error ⟨.InvalidIndex, "invalid array index: " ++ token⟩
  | _ => .error ⟨.NotContainer, "cannot replace in a scalar value"⟩

mutual
/-- Modelled from the spec: deep structural equality for `test` (§4.2) —
same kind and value, object key order irrelevant, array order relevant,
numbers compared by value. -/
def jsonEq : JsonValue → JsonValue → Bool
  | .null, .null => true
  | .bool a, .bool b => a == b
  | .num a, .num b => a == b
  | .str a, .str b => a == b
  | .arr xs, .arr ys => jsonListEq xs ys
  | .obj xs, .obj ys => xs.length == ys.length && jsonObjLe xs ys
  | _, _ => false
  termination_by v _ => sizeOf v

/-- Pointwise deep equality of two arrays. -/
def jsonListEq : List JsonValue → List JsonValue → Bool
  | [], [] => true
  | x :: xs, y :: ys => jsonEq x y && jsonListEq xs ys
  | _, _ => false
  termination_by xs _ => sizeOf xs

/-- Every binding of the first object deep-matches a binding of the
second (with unique keys and equal lengths this is object equality). -/
def jsonObjLe : List (String × JsonValue) → List (String × JsonValue) → Bool
  | [], _ => true
  | (k, v) :: rest, ys =>
      (match lookupKey ys k with
       | some w => jsonEq v w
       | none => false) && jsonObjLe rest ys
  termination_by xs _ => sizeOf xs
end

/-- String field of an operation mapping, when present and a string. -/
def getStr (op : JsonValue) (key : String) : Option String :=
  match op.getField key with
  | some (.str s) => some s
  | _ => none

/-- Modelled from the spec: extract an operation's pointer field and
parse it. A missing or non-string field is a malformed operation; a
string that is not valid RFC 6901 pointer syntax has no kind of its own
in the §7 taxonomy and is reported as `PointerNotFound`. -/
def getPtr (op : JsonValue) (key : String) : Except EngineErr (List String) :=
  match getStr op key with
  | some s =>
      match parsePointer s with
      | some ts => .ok ts
      | none => .error ⟨.PointerNotFound, "invalid JSON pointer: " ++ s⟩
  | none => .error ⟨.MalformedPatch, "operation field missing or not a string: " ++ key⟩

/-- Extract an operation's `value` field (any JSON value). -/
def getValue (op : JsonValue) : Except EngineErr JsonValue :=
  match op.getField "value" with
  | some v => .ok v
  | none => .error ⟨.MalformedPatch, "operation field missing: value"⟩

/-- `a` is a strict ancestor of `b`: the token list `a` is a proper
prefix of `b` (a `move` source must not be one of its destination,
§4.2). -/
def isProperAncestor (a b : List String) : Bool :=
  List.isPrefixOf a b && a.length < b.length

/-- Modelled from the spec: `add` at a pointer (§4.2) — the root path
makes the value the new document, otherwise `resolveParent` + `insertAt`. -/
def addAt (doc : JsonValue) (ptr : List String) (v : JsonValue) : Except EngineErr JsonValue :=
  match ptr with
  | [] => .ok v
  | _ :: _ => withParent doc ptr (insertAtC v)

/-- Modelled from the spec: `remove` at a pointer (§4.2) —
`resolveParent` + `removeAt`; the root fails with `RootHasNoParent`. -/
def removeAt (doc : JsonValue) (ptr : List String) : Except EngineErr JsonValue :=
  withParent doc ptr removeAtC

/-- Modelled from the spec: apply one operation of the §4.2 table to a
document: `add`, `remove`, `replace` (root path replaces the whole
document), `move` (`from` must not be a strict ancestor of `path`, else
`InvalidMove`; then resolve, remove at `from`, add at `path`), `copy`
(resolve at `from`, add at `path`), and `test` (deep equality, else
`TestFailed`). -/
def applyOp (doc : JsonValue) (op : JsonValue) : Except EngineErr JsonValue :=
  match getStr op "op" with
  | some "add" => do
      let ptr ← getPtr op "path"
      let v ← getValue op
      addAt doc ptr v
  | some "remove" => do
      let ptr ← getPtr op "path"
      removeAt doc ptr
  | some "replace" => do
      let ptr ← getPtr op "path"
      let v ← getValue op
      match ptr with
      | [] => .ok v
      | _ :: _ => withParent doc ptr (replaceAtC v)
  | some "move" => do
      let src ← getPtr op "from"
      let dst ← getPtr op "path"
      if isProperAncestor src dst then
        .error ⟨.InvalidMove, "cannot move a value into its own descendant"⟩
      else do
        let v ← resolve doc src
        let d2 ← removeAt doc src
        addAt d2 dst v
  | some "copy" => do
      let src ← getPtr op "from"
      let dst ← getPtr op "path"
      let v ← resolve doc src
      addAt doc dst v
  | some "test" => do
      let ptr ← getPtr op "path"
      let v ← getValue op
      let actual ← resolve doc ptr
      if jsonEq actual v then .ok doc
      else .error ⟨.TestFailed, "test failed: values differ"⟩
  | some other => .error ⟨.MalformedPatch, "unknown operation kind: " ++ other⟩
  | none => .error ⟨.MalformedPatch, "operation field missing or not a string: op"⟩

/-- Modelled from the spec: structural check of one element for the
engine's pre-pass (§4.2) — a mapping with string `op` among the six
kinds and a string `path`; `add`/`replace`/`test` carry `value`;
`move`/`copy` carry a string `from`. -/
def engineValidateElem (op : JsonValue) : Option String :=
  match op with
  | .obj kvs =>
      if !(hasKey kvs "op" && hasKey kvs "path") then
        some "operation must be a mapping with op and path"
      else
        match lookupKey kvs "op", lookupKey kvs "path" with
        | some (.str s), some (.str _) =>
            if s = "add" || s = "replace" || s = "test" then
              if hasKey kvs "value" then none
              else some ("operation lacks value: " ++ s)
            else if s = "remove" then none
            else if s = "move" || s = "copy" then
              match lookupKey kvs "from" with
              | some (.str _) => none
              | some _ => some ("operation from is not a string: " ++ s)
              | none => some ("operation lacks from: " ++ s)
            else some ("unknown operation kind: " ++ s)
        | _, _ => some "operation op and path must be strings"
  | _ => some "operation must be a mapping with op and path"

/-- The engine's validation loop: first offending element wins, tagged
with its 0-based index. -/
def engineValidateLoop : List JsonValue → Nat → Option (Nat × String)
  | [], _ => none
  | op :: rest, i =>
      match engineValidateElem op with
      | some msg => some (i, msg)
      | none => engineValidateLoop rest (i + 1)


/-- Modelled from the spec: sequential application (§4.2) — each
operation sees the result of all prior ones; the first failure halts and
is tagged with the failing operation's 0-based index. -/
def applyOps : JsonValue → List JsonValue → Nat → Except PatchFailure JsonValue
  | doc, [], _ => .ok doc
  | doc, op :: rest, i =>
      match applyOp doc op with
      | .ok d2 => applyOps d2 rest (i + 1)
      | .error e => .error ⟨some i, e.kind, e.detail⟩

/-- Modelled from the spec: the full patch engine (the external
`jsonpatch` library behind `apply_patch`) — structural validation as a
distinct pre-pass (`MalformedPatch`), then sequential application. -/
def applyPatchEngine (src : JsonValue) (ops : JsonValue) : Except PatchFailure JsonValue :=
  match ops with
  | .arr elems =>
      match engineValidateLoop elems 0 with
      | some (i, msg) => .error ⟨some i, .MalformedPatch, msg⟩
      | none => applyOps src elems 0
  | _ => .error ⟨none, .MalformedPatch, "patch is not an array of operations"⟩

/-! ## The LangGraph pipeline of `src/app.py`

`AppState` is the graph state (`TypedDict, total=False`): every key may
be absent, modelled with `Option` fields (`none` = key absent).  A node
returns a partial state update; LangGraph merges it into the state
key-by-key, a returned key overwriting the old value.  The `debug` key
is diagnostic-only and omitted from the model. -/

/-- The graph state of `src/app.py` (`class AppState(TypedDict, total=False)`). -/
structure AppState where
  instruction : Option String := none
  src : Option JsonValue := none
  patch_ops : Option JsonValue := none
  result : Option JsonValue := none
  error : Option String := none

/-- LangGraph channel merge: a key present in the update overwrites the
state's value, an absent key keeps it. -/
def mergeField {α : Type} (upd old : Option α) : Option α :=
  match upd with
  | some v => some v
  | none => old

/-- Merge a node's partial update into the current state. -/
def applyState (s upd : AppState) : AppState where
  instruction := mergeField upd.instruction s.instruction
  src := mergeField upd.src s.src
  patch_ops := mergeField upd.patch_ops s.patch_ops
  result := mergeField upd.result s.result
  error := mergeField upd.error s.error

/-- Python truthiness of `state.get("error")`: the key is present and
the string is non-empty. -/
def errTruthy : Option String → Bool
  | some s => !s.isEmpty
  | none => false

/-- Python truthiness of `state.get("patch_ops")`: the key is present
and the value is truthy (for the list the code stores there: non-empty). -/
def opsTruthy : Option JsonValue → Bool
  | some v => truthy v
  | none => false

/-- The `generate_patch` node of `src/app.py`, from the point where the
language-model response has been stripped and parsed (the model call and
JSON text parsing are external collaborators): `parsed = none` stands
for the exception path (`except Exception`), and a parsed value is run
through `validate_patch_ops`; a validation error yields an error state
without `patch_ops`, otherwise the ops are stored. -/
def generate_patch (parsed : Option JsonValue) : AppState :=
  match parsed with
  | none => { error := some "패치 생성 실패: exception" }
  | some ops =>
      match validate_patch_ops ops with
      | some err => { error := some ("패치 유효성 오류: " ++ err) }
      | none => { patch_ops := some ops }

/-- The `judge` node of `src/app.py` as its merged effect on the state:
with a truthy error, or with truthy `patch_ops`, the state is returned
unchanged; otherwise the node contributes the missing-patch error. -/
def judge (s : AppState) : AppState :=
  if errTruthy s.error then s
  else if !opsTruthy s.patch_ops then
    applyState s { error := some "생성된 패치가 없습니다." }
  else s

/-- The `apply_patch` node of `src/app.py`: apply the engine to
`state["src"]` and `state["patch_ops"]` out of place; an engine failure
is caught and returned as an error update, a missing key raises
`KeyError`, which the final `except Exception` turns into the unknown-
error update. -/
def apply_patch (s : AppState) : AppState :=
  match s.src, s.patch_ops with
  | some src, some ops =>
      match applyPatchEngine src ops with
      | .ok patched => { result := some patched }
      | .error f => { error := some ("패치 적용 실패: " ++ f.detail) }
  | _, _ => { error := some "알 수 없는 적용 오류: KeyError" }

/-- Where the conditional edge after `judge` sends the state. -/
inductive Route where
  | toApply
  | toEnd
  deriving DecidableEq, Repr

/-- The `_route` function inside `build_graph`: an error-bearing state
goes to `END`, a state with truthy `patch_ops` goes to the apply node,
anything else to `END`. -/
def route (s : AppState) : Route :=
  if errTruthy s.error then .toEnd
  else if opsTruthy s.patch_ops then .toApply
  else .toEnd

/-- The compiled graph of `build_graph`, run on an initial state:
`START → generate_patch → judge →` (conditional on `route`) `→
apply_patch → END` or directly `END`.  As in `generate_patch`, the
parsed model response is the `parsed` parameter. -/
def pipeline (init : AppState) (parsed : Option JsonValue) : AppState :=
  let s1 := applyState init (generate_patch parsed)
  let s2 := judge s1
  match route s2 with
  | .toApply => applyState s2 (apply_patch s2)
  | .toEnd => s2

/-! ## Concrete documents and patches from the specification's examples -/

/-- The example source document of §8 (also the app's `default_json`):
`{"name":"Alice","age":20,"tags":["x","y"],"profile":{"city":"Seoul"}}`. -/
def srcDoc : JsonValue :=
  .obj [("name", .str "Alice"), ("age", .num 20),
        ("tags", .arr [.str "x", .str "y"]),
        ("profile", .obj [("city", .str "Seoul")])]

/-- The three-operation example patch of §8: replace `/name` with
`"Bob"`, append `"z"` at the `-` append target of `/tags`, move `/age` to `/profile/age`. -/
def ops7 : JsonValue :=
  .arr [
    .obj [("op", .str "replace"), ("path", .str "/name"), ("value", .str "Bob")],
    .obj [("op", .str "add"), ("path", .str "/tags/-"), ("value", .str "z")],
    .obj [("op", .str "move"), ("from", .str "/age"), ("path", .str "/profile/age")]]

/-- The expected result of `ops7` on `srcDoc`:
`{"name":"Bob","tags":["x","y","z"],"profile":{"city":"Seoul","age":20}}`. -/
def resultDoc : JsonValue :=
  .obj [("name", .str "Bob"),
        ("tags", .arr [.str "x", .str "y", .str "z"]),
        ("profile", .obj [("city", .str "Seoul"), ("age", .num 20)])]

/-- The out-of-bounds removal of §8: `[{"op":"remove","path":"/tags/5"}]`. -/
def ops8 : JsonValue :=
  .arr [.obj [("op", .str "remove"), ("path", .str "/tags/5")]]

/-- The acceptance condition of claim C1, written from the claim's own
words: a sequence whose every element is a mapping with at least `op`
and `path`, whose `op` is one of the six kinds
add/remove/replace/move/copy/test, with `value` on add/replace/test and
`from` on move/copy. -/
def claimElemB (op : JsonValue) : Bool :=
  match op with
  | .obj kvs =>
      hasKey kvs "op" && hasKey kvs "path" &&
      (match lookupKey kvs "op" with
       | some (.str s) =>
           (s = "add" || s = "remove" || s = "replace"
             || s = "move" || s = "copy" || s = "test") &&
           ((!(s = "add" || s = "replace" || s = "test")) || hasKey kvs "value") &&
           ((!(s = "move" || s = "copy")) || hasKey kvs "from")
       | _ => false)
  | _ => false

/-- Claim C1's acceptance condition over the whole operations value. -/
def claimValidB (ops : JsonValue) : Bool :=
  match ops with
  | .arr elems => elems.all claimElemB
  | _ => false

/-- What `validate_patch_ops` actually accepts, element-wise: a mapping
with `op` and `path`, `value` when the `op` string is add/replace/test,
`from` when it is move/copy — and no constraint at all on any other
`op`, known or not. -/
def amendedElemB (op : JsonValue) : Bool :=
  match op with
  | .obj kvs =>
      hasKey kvs "op" && hasKey kvs "path" &&
      (match lookupKey kvs "op" with
       | some (.str s) =>
           ((!(s = "add" || s = "replace" || s = "test")) || hasKey kvs "value") &&
           ((!(s = "move" || s = "copy")) || hasKey kvs "from")
       | _ => true)
  | _ => false

/-- The amended acceptance condition over the whole operations value. -/
def amendedValidB (ops : JsonValue) : Bool :=
  match ops with
  | .arr elems => elems.all amendedElemB
  | _ => false

/-- An operations array whose single element has the unknown kind
`frobnicate` but is otherwise well-shaped. -/
def frobOps : JsonValue :=
  .arr [.obj [("op", .str "frobnicate"), ("path", .str "/x")]]

/-! ## Theorems for the claims -/

/-- **C7.** On the document
`{"name":"Alice","age":20,"tags":["x","y"],"profile":{"city":"Seoul"}}`,
the engine applies the three-operation patch (replace `/name` with
`"Bob"`, add `"z"` at the end of `/tags`, move `/age` to `/profile/age`)
successfully; the result equals
`{"name":"Bob","tags":["x","y","z"],"profile":{"city":"Seoul","age":20}}`,
it has no top-level `age` key, and the `apply_patch` node returns it as
the success result. -/
theorem example_three_ops_ok :
    applyPatchEngine srcDoc ops7 = .ok resultDoc
    ∧ resultDoc.getField "age" = none
    ∧ (apply_patch { src := some srcDoc, patch_ops := some ops7 }).result = some resultDoc
    ∧ (apply_patch { src := some srcDoc, patch_ops := some ops7 }).error = none := by
  refine ⟨rfl, rfl, rfl, rfl⟩

/-- **C8.** On the same document, the single operation
`{"op":"remove","path":"/tags/5"}` fails with `IndexOutOfRange` at
operation index 0, and the `apply_patch` node returns an error state
with no success document. -/
theorem example_remove_out_of_bounds :
    applyPatchEngine srcDoc ops8
      = .error ⟨some 0, .IndexOutOfRange, "array index out of range: 5"⟩
    ∧ (apply_patch { src := some srcDoc, patch_ops := some ops8 }).result = none
    ∧ (apply_patch { src := some srcDoc, patch_ops := some ops8 }).error
        = some ("패치 적용 실패: " ++ "array index out of range: 5") := by
  refine ⟨rfl, rfl, rfl⟩

/-- Reduce the two-step guard of `validateElem` over generic Booleans. -/
theorem guard_chain_none_iff (needsV needsF hv hf : Bool) (m1 m2 : String) :
    (if needsV && !hv then some m1 else if needsF && !hf then some m2 else none) = none
      ↔ ((!needsV || hv) && (!needsF || hf)) = true := by
  cases needsV <;> cases hv <;> cases needsF <;> cases hf <;> simp

/-- `validateElem` accepts exactly the elements of the amended condition. -/
theorem validateElem_none_iff (i : Nat) (op : JsonValue) :
    validateElem i op = none ↔ amendedElemB op = true := by
  cases op with
  | obj kvs =>
      simp only [validateElem, amendedElemB]
      cases hop : hasKey kvs "op" <;> cases hpath : hasKey kvs "path"
      case false.false | false.true | true.false => simp
      case true.true =>
        simp only [Bool.and_self, if_true, Bool.true_and]
        cases hl : lookupKey kvs "op" with
        | none => simp [hasKey, hl] at hop
        | some v =>
            cases v
            case str s => exact guard_chain_none_iff _ _ _ _ _ _
            all_goals simp
  | null | bool _ | num _ | str _ | arr _ => simp [validateElem, amendedElemB]

/-- The validation loop accepts exactly lists of amended-valid elements. -/
theorem validateLoop_none_iff : ∀ (l : List JsonValue) (i : Nat),
    validateLoop l i = none ↔ l.all amendedElemB = true := by
  intro l
  induction l with
  | nil => intro i; simp [validateLoop]
  | cons op rest ih =>
      intro i
      simp only [validateLoop, List.all_cons, Bool.and_eq_true]
      cases h : validateElem i op with
      | some msg =>
          have : ¬ amendedElemB op = true := by
            rw [← validateElem_none_iff i op]; simp [h]
          simp [this]
      | none =>
          have := (validateElem_none_iff i op).mp h
          simp [this, ih (i + 1)]

/-- An error from `validateElem` is one of its three messages for that
index. -/
theorem validateElem_some (i : Nat) (op : JsonValue) (msg : String)
    (h : validateElem i op = some msg) :
    msg = msgBadElem i ∨ ∃ s, msg = msgNoValue i s ∨ msg = msgNoFrom i s := by
  cases op with
  | obj kvs =>
      simp only [validateElem] at h
      split at h
      · split at h
        next s _ =>
          split at h
          · injection h with h
            exact Or.inr ⟨s, Or.inl h.symm⟩
          · split at h
            · injection h with h
              exact Or.inr ⟨s, Or.inr h.symm⟩
            · cases h
        next => cases h
      · injection h with h
        exact Or.inl h.symm
  | null | bool _ | num _ | str _ | arr _ =>
      simp only [validateElem] at h
      injection h with h
      exact Or.inl h.symm

/-- An error from the validation loop started at `i` names the absolute
index `i + j` of some element position `j` of the remaining list. -/
theorem validateLoop_some : ∀ (l : List JsonValue) (i : Nat) (msg : String),
    validateLoop l i = some msg →
    ∃ j, j < l.length ∧
      (msg = msgBadElem (i + j)
        ∨ ∃ s, msg = msgNoValue (i + j) s ∨ msg = msgNoFrom (i + j) s) := by
  intro l
  induction l with
  | nil => intro i msg h; simp [validateLoop] at h
  | cons op rest ih =>
      intro i msg h
      simp only [validateLoop] at h
      cases he : validateElem i op with
      | some m =>
          rw [he] at h
          refine ⟨0, by simp, ?_⟩
          have := validateElem_some i op msg (by rw [he, ← h])
          simpa using this
      | none =>
          rw [he] at h
          obtain ⟨j, hj, hmsg⟩ := ih (i + 1) msg h
          refine ⟨j + 1, by simpa using Nat.succ_lt_succ hj, ?_⟩
          have harith : i + (j + 1) = i + 1 + j := by omega
          rw [harith]
          exact hmsg

/-- **C1 (counterexample).** The claim says `validate_patch_ops` accepts
only when every element's `op` is one of the six known kinds; the code
never checks the kind, so the well-shaped single operation
`{"op":"frobnicate","path":"/x"}` is accepted although the claim's
acceptance condition rejects it. -/
theorem validate_accepts_unknown_kind :
    validate_patch_ops frobOps = none ∧ claimValidB frobOps = false :=
  ⟨rfl, rfl⟩

/-- **C1 (amended).** `validate_patch_ops` accepts exactly when the
value is a sequence whose every element is a mapping with at least `op`
and `path`, where an element whose `op` string is add/replace/test
carries `value` and one whose `op` string is move/copy carries `from`
(no constraint on other kinds); and every rejection of a sequence
reports one of the three element error messages naming the offending
element's index. -/
theorem validate_patch_ops_spec :
    (∀ ops : JsonValue, validate_patch_ops ops = none ↔ amendedValidB ops = true)
    ∧ (∀ (l : List JsonValue) (msg : String), validate_patch_ops (.arr l) = some msg →
        ∃ i, i < l.length ∧
          (msg = msgBadElem i ∨ ∃ s, msg = msgNoValue i s ∨ msg = msgNoFrom i s)) := by
  constructor
  · intro ops
    cases ops with
    | arr elems => simpa [validate_patch_ops, amendedValidB] using validateLoop_none_iff elems 0
    | null | bool _ | num _ | str _ | obj _ => simp [validate_patch_ops, amendedValidB, msgNotArray]
  · intro l msg h
    simp only [validate_patch_ops] at h
    simpa using validateLoop_some l 0 msg h

/-- Witness for the amended C1 theorem: the element-message part applied
to the concrete rejected patch `[{"op":"add","path":"/x"}]` of §8. -/
theorem validate_patch_ops_spec_witness :
    ∃ i, i < 1 ∧
      (msgNoValue 0 "add" = msgBadElem i
        ∨ ∃ s, msgNoValue 0 "add" = msgNoValue i s ∨ msgNoValue 0 "add" = msgNoFrom i s) := by
  have := validate_patch_ops_spec.2
    [.obj [("op", .str "add"), ("path", .str "/x")]] (msgNoValue 0 "add") rfl
  simpa using this

/-- A string built by prefixing a non-empty literal is truthy as an
error value (Python: a non-empty string). -/
theorem errTruthy_append (pre err : String) (h : pre.data ≠ []) :
    errTruthy (some (pre ++ err)) = true := by
  simp only [errTruthy, Bool.not_eq_true']
  rw [Bool.eq_false_iff]
  intro hemp
  have h2 := (String.isEmpty_iff _).mp hemp
  have h3 : (pre ++ err).data = "".data := congrArg String.data h2
  rw [String.data_append] at h3
  simp at h3
  exact h h3.1

/-- Unfolding equation for `apply_patch` when both keys are present. -/
theorem apply_patch_some_eq (s : AppState) (doc ops : JsonValue)
    (hd : s.src = some doc) (hp : s.patch_ops = some ops) :
    apply_patch s
      = match applyPatchEngine doc ops with
        | .ok patched => { result := some patched }
        | .error f => { error := some ("패치 적용 실패: " ++ f.detail) } := by
  unfold apply_patch
  rw [hd, hp]

/-- Unfolding equation for `apply_patch` when a key is missing (the
`KeyError` caught by the bare `except Exception`). -/
theorem apply_patch_none_eq (s : AppState) (h : s.src = none ∨ s.patch_ops = none) :
    apply_patch s = { error := some "알 수 없는 적용 오류: KeyError" } := by
  unfold apply_patch
  rcases h with h | h
  · rw [h]
  · rw [h]; cases s.src <;> rfl

/-- **C2.** The `apply_patch` node never touches the source document:
its update never carries a `src` key, so the merged state's `src` is
deep-equal (here: equal) to its value before the call whether the patch
succeeds or fails; and a successful `result` is the engine's output for
the untouched input document, an independent value rather than the
partially-mutated input. -/
theorem apply_patch_preserves_src (s : AppState) :
    (apply_patch s).src = none
    ∧ (applyState s (apply_patch s)).src = s.src
    ∧ (∀ doc ops r, s.src = some doc → s.patch_ops = some ops →
        (apply_patch s).result = some r → applyPatchEngine doc ops = .ok r) := by
  have hsrc : (apply_patch s).src = none := by
    cases hs : s.src with
    | none => rw [apply_patch_none_eq s (Or.inl hs)]
    | some doc =>
        cases hp : s.patch_ops with
        | none => rw [apply_patch_none_eq s (Or.inr hp)]
        | some ops =>
            rw [apply_patch_some_eq s doc ops hs hp]
            cases he : applyPatchEngine doc ops <;> rfl
  refine ⟨hsrc, ?_, ?_⟩
  · simp [applyState, hsrc, mergeField]
  · intro doc ops r hd hp hr
    rw [apply_patch_some_eq s doc ops hd hp] at hr
    generalize applyPatchEngine doc ops = res at hr ⊢
    cases res with
    | ok patched => simpa using hr
    | error f => simp at hr

/-- Witness for C2 at the concrete example: applying the three-operation
patch leaves the state's `src` untouched and the success result is the
engine output on the input document. -/
theorem apply_patch_preserves_src_witness :
    (applyState { src := some srcDoc, patch_ops := some ops7 }
        (apply_patch { src := some srcDoc, patch_ops := some ops7 })).src = some srcDoc
    ∧ applyPatchEngine srcDoc ops7 = .ok resultDoc :=
  ⟨(apply_patch_preserves_src { src := some srcDoc, patch_ops := some ops7 }).2.1,
   (apply_patch_preserves_src { src := some srcDoc, patch_ops := some ops7 }).2.2
     srcDoc ops7 resultDoc rfl rfl rfl⟩

/-- **C4.** The `apply_patch` node returns exactly one of a success
update (a `result` document and no `error`) or a failure update (an
`error` and no `result`), never both; in particular no partially-applied
document is ever exposed under `result` on failure. -/
theorem apply_patch_success_xor_error (s : AppState) :
    ((apply_patch s).result.isSome ∧ (apply_patch s).error = none)
    ∨ ((apply_patch s).result = none ∧ (apply_patch s).error.isSome) := by
  cases hs : s.src with
  | none => right; rw [apply_patch_none_eq s (Or.inl hs)]; simp
  | some doc =>
      cases hp : s.patch_ops with
      | none => right; rw [apply_patch_none_eq s (Or.inr hp)]; simp
      | some ops =>
          cases he : applyPatchEngine doc ops with
          | ok patched =>
              left; rw [apply_patch_some_eq s doc ops hs hp, he]; simp
          | error f =>
              right; rw [apply_patch_some_eq s doc ops hs hp, he]; simp

/-- **C10.** The `apply_patch` node is total at its boundary: it always
returns a state update (an error or a result); every engine failure is
converted into an error update carrying the failure message (the
`except` arms of the Python code), and even a state missing `src` or
`patch_ops` produces the unknown-error update (the bare
`except Exception` catching `KeyError`) rather than an exception. -/
theorem apply_patch_total_boundary (s : AppState) :
    ((apply_patch s).error.isSome ∨ (apply_patch s).result.isSome)
    ∧ (∀ doc ops f, s.src = some doc → s.patch_ops = some ops →
        applyPatchEngine doc ops = .error f →
        apply_patch s = { error := some ("패치 적용 실패: " ++ f.detail) })
    ∧ ((s.src = none ∨ s.patch_ops = none) →
        apply_patch s = { error := some "알 수 없는 적용 오류: KeyError" }) := by
  refine ⟨?_, ?_, ?_⟩
  · cases hs : s.src with
    | none => left; rw [apply_patch_none_eq s (Or.inl hs)]; simp
    | some doc =>
        cases hp : s.patch_ops with
        | none => left; rw [apply_patch_none_eq s (Or.inr hp)]; simp
        | some ops =>
            cases he : applyPatchEngine doc ops with
            | ok patched =>
                right; rw [apply_patch_some_eq s doc ops hs hp, he]; simp
            | error f =>
                left; rw [apply_patch_some_eq s doc ops hs hp, he]; simp
  · intro doc ops f hd hp he
    rw [apply_patch_some_eq s doc ops hd hp, he]
  · exact apply_patch_none_eq s

/-- Witness for C10: the out-of-bounds removal's engine failure is
converted into the error update. -/
theorem apply_patch_total_boundary_witness :
    apply_patch { src := some srcDoc, patch_ops := some ops8 }
      = { error := some ("패치 적용 실패: " ++ "array index out of range: 5") } :=
  (apply_patch_total_boundary _).2.1 srcDoc ops8
    ⟨some 0, .IndexOutOfRange, "array index out of range: 5"⟩ rfl rfl rfl

/-- The rejected patch of §8: `[{"op":"add","path":"/x"}]`, missing `value`. -/
def noValueOps : JsonValue :=
  .arr [.obj [("op", .str "add"), ("path", .str "/x")]]

/-- **C3.** When structural validation rejects the parsed operations,
`generate_patch` returns an error state without `patch_ops`, the router
sends the state to `END`, and the pipeline ends with the validation
error and no `result`: the apply step is never reached and no operation
is applied to the document. -/
theorem validation_failure_skips_apply (init : AppState) (ops : JsonValue) (err : String)
    (hv : validate_patch_ops ops = some err) (hr : init.result = none) :
    (generate_patch (some ops)).patch_ops = none
    ∧ (generate_patch (some ops)).error = some ("패치 유효성 오류: " ++ err)
    ∧ route (judge (applyState init (generate_patch (some ops)))) = .toEnd
    ∧ (pipeline init (some ops)).error = some ("패치 유효성 오류: " ++ err)
    ∧ (pipeline init (some ops)).result = none := by
  have hgen : generate_patch (some ops) = { error := some ("패치 유효성 오류: " ++ err) } := by
    simp [generate_patch, hv]
  set s1 := applyState init (generate_patch (some ops)) with hs1
  have h1e : s1.error = some ("패치 유효성 오류: " ++ err) := by
    rw [hs1, hgen]; simp [applyState, mergeField]
  have h1r : s1.result = none := by
    rw [hs1, hgen]; simp [applyState, mergeField, hr]
  have htr : errTruthy s1.error = true := by
    rw [h1e]; exact errTruthy_append _ _ (by decide)
  have hj : judge s1 = s1 := by
    unfold judge; rw [htr]; simp
  have hro : route s1 = .toEnd := by
    unfold route; rw [htr]; simp
  have hpipe : pipeline init (some ops) = s1 := by
    show (match route (judge s1) with
          | Route.toApply => applyState (judge s1) (apply_patch (judge s1))
          | Route.toEnd => judge s1) = s1
    rw [hj, hro]
  refine ⟨?_, ?_, ?_, ?_, ?_⟩
  · rw [hgen]
  · rw [hgen]
  · rw [hj, hro]
  · rw [hpipe, h1e]
  · rw [hpipe, h1r]

/-- Witness for C3: the §8 example `[{"op":"add","path":"/x"}]` fails
validation and the pipeline ends with the validation error and no
result. -/
theorem validation_failure_skips_apply_witness :
    (pipeline { src := some srcDoc } (some noValueOps)).error
        = some ("패치 유효성 오류: " ++ msgNoValue 0 "add")
    ∧ (pipeline { src := some srcDoc } (some noValueOps)).result = none := by
  have h := validation_failure_skips_apply { src := some srcDoc } noValueOps
    (msgNoValue 0 "add") rfl rfl
  exact ⟨h.2.2.2.1, h.2.2.2.2⟩

/-- Unfolding equation for the engine on a structurally valid array. -/
theorem applyPatchEngine_arr_valid (src : JsonValue) (l : List JsonValue)
    (hv : engineValidateLoop l 0 = none) :
    applyPatchEngine src (.arr l) = applyOps src l 0 := by
  simp only [applyPatchEngine]
  rw [hv]

/-- Unfolding equation for the engine on a structurally invalid array. -/
theorem applyPatchEngine_arr_invalid (src : JsonValue) (l : List JsonValue)
    (i : Nat) (msg : String) (hv : engineValidateLoop l 0 = some (i, msg)) :
    applyPatchEngine src (.arr l) = .error ⟨some i, .MalformedPatch, msg⟩ := by
  simp only [applyPatchEngine]
  rw [hv]

/-- The index reported by the engine's validation loop started at `n`
points at an element of the list. -/
theorem engineValidateLoop_spec : ∀ (l : List JsonValue) (n i : Nat) (msg : String),
    engineValidateLoop l n = some (i, msg) →
    ∃ j, i = n + j ∧ j < l.length := by
  intro l
  induction l with
  | nil => intro n i msg h; simp [engineValidateLoop] at h
  | cons op rest ih =>
      intro n i msg h
      simp only [engineValidateLoop] at h
      cases he : engineValidateElem op with
      | some m =>
          rw [he] at h
          injection h with h
          cases h
          exact ⟨0, by omega, by simp⟩
      | none =>
          rw [he] at h
          obtain ⟨j, hj, hlt⟩ := ih (n + 1) i msg h
          exact ⟨j + 1, by omega, by simpa using Nat.succ_lt_succ hlt⟩

/-- A failure of the sequential application loop started at counter `n`
is located at offset `j`: the first `j` operations succeed and the
`j`-th fails with exactly the reported kind and detail. -/
theorem applyOps_error_spec : ∀ (l : List JsonValue) (doc : JsonValue) (n : Nat) (f : PatchFailure),
    applyOps doc l n = .error f →
    ∃ j, f.index = some (n + j) ∧ j < l.length ∧
      ∃ doc2, applyOps doc (l.take j) n = .ok doc2 ∧
        ∃ op, l.get? j = some op ∧ applyOp doc2 op = .error ⟨f.kind, f.detail⟩ := by
  intro l
  induction l with
  | nil => intro doc n f h; simp [applyOps] at h
  | cons op rest ih =>
      intro doc n f h
      simp only [applyOps] at h
      cases hop : applyOp doc op with
      | error e =>
          rw [hop] at h
          injection h with h
          subst h
          exact ⟨0, by simp, by simp, doc, by simp [applyOps], op, rfl, by rw [hop]⟩
      | ok d2 =>
          rw [hop] at h
          obtain ⟨j, hidx, hlt, doc2, htake, op2, hget, happ⟩ := ih d2 (n + 1) f h
          refine ⟨j + 1, by rw [hidx]; congr 1; omega,
            by simpa using Nat.succ_lt_succ hlt, doc2, ?_, op2, by simpa using hget, happ⟩
          rw [List.take_succ_cons]
          simp only [applyOps]
          rw [hop]
          exact htake

/-- **C5.** A failing application of an operations array produces a
structured failure whose `index` is the 0-based position of the failing
element (in range of the array), whose `kind` comes from the closed
taxonomy (the type `ErrKind` has exactly its nine constructors), and
whose `detail` string is the failing step's own message: either the
structural pre-pass rejected element `index` with that very message
(`MalformedPatch`), or all earlier operations succeed and operation
`index` fails with exactly the reported kind and detail. -/
theorem engine_failure_structure (src : JsonValue) (l : List JsonValue) (f : PatchFailure)
    (h : applyPatchEngine src (.arr l) = .error f) :
    ∃ i, f.index = some i ∧ i < l.length ∧
      ((f.kind = .MalformedPatch ∧ engineValidateLoop l 0 = some (i, f.detail))
        ∨ ∃ doc2 op, applyOps src (l.take i) 0 = .ok doc2 ∧ l.get? i = some op
            ∧ applyOp doc2 op = .error ⟨f.kind, f.detail⟩) := by
  cases hv : engineValidateLoop l 0 with
  | some pair =>
      obtain ⟨i, msg⟩ := pair
      rw [applyPatchEngine_arr_invalid src l i msg hv] at h
      injection h with h
      obtain ⟨j, hj, hlt⟩ := engineValidateLoop_spec l 0 i msg hv
      subst h
      exact ⟨i, rfl, by omega, Or.inl ⟨rfl, rfl⟩⟩
  | none =>
      rw [applyPatchEngine_arr_valid src l hv] at h
      obtain ⟨j, hidx, hlt, doc2, htake, op, hget, happ⟩ := applyOps_error_spec l src 0 f h
      exact ⟨j, by simpa using hidx, hlt, Or.inr ⟨doc2, op, htake, hget, happ⟩⟩

/-- Witness for C5: the failure of the out-of-bounds removal of §8
carries index 0, kind `IndexOutOfRange`, and the failing step's detail. -/
theorem engine_failure_structure_witness :
    ∃ i, (⟨some 0, ErrKind.IndexOutOfRange, "array index out of range: 5"⟩ : PatchFailure).index = some i
      ∧ i < [JsonValue.obj [("op", .str "remove"), ("path", .str "/tags/5")]].length
      ∧ (((⟨some 0, ErrKind.IndexOutOfRange, "array index out of range: 5"⟩ : PatchFailure).kind = .MalformedPatch
            ∧ engineValidateLoop [JsonValue.obj [("op", .str "remove"), ("path", .str "/tags/5")]] 0
                = some (i, "array index out of range: 5"))
          ∨ ∃ doc2 op,
              applyOps srcDoc ([JsonValue.obj [("op", .str "remove"), ("path", .str "/tags/5")]].take i) 0 = .ok doc2
              ∧ [JsonValue.obj [("op", .str "remove"), ("path", .str "/tags/5")]].get? i = some op
              ∧ applyOp doc2 op = .error ⟨ErrKind.IndexOutOfRange, "array index out of range: 5"⟩) :=
  engine_failure_structure srcDoc
    [JsonValue.obj [("op", .str "remove"), ("path", .str "/tags/5")]]
    ⟨some 0, ErrKind.IndexOutOfRange, "array index out of range: 5"⟩ rfl

/-- **C6 (counterexample).** The claim says the pipeline succeeds on an
empty operations sequence; in the code an empty `patch_ops` list is
falsy, so `judge` reports the missing-patch error and no result is
produced. -/
theorem empty_patch_pipeline_errors :
    (pipeline { src := some srcDoc } (some (.arr []))).error = some "생성된 패치가 없습니다."
    ∧ (pipeline { src := some srcDoc } (some (.arr []))).result = none :=
  ⟨rfl, rfl⟩

/-- **C6 (amended).** Applying an empty operations sequence with the
apply step alone succeeds and returns a document equal to the input; the
full pipeline, however, treats the validated-but-empty operations list
as "no patch generated" in `judge` (Python truthiness of the empty
list), ends with that error, and never reaches the apply step. -/
theorem empty_patch_amended (s init : AppState) (doc : JsonValue)
    (hs : s.src = some doc) (hp : s.patch_ops = some (.arr []))
    (hie : init.error = none) (hir : init.result = none) :
    apply_patch s = { result := some doc }
    ∧ (pipeline init (some (.arr []))).error = some "생성된 패치가 없습니다."
    ∧ (pipeline init (some (.arr []))).result = none := by
  have hgen : generate_patch (some (.arr [])) = { patch_ops := some (.arr []) } := rfl
  set s1 := applyState init (generate_patch (some (.arr []))) with hs1
  have h1e : s1.error = none := by rw [hs1, hgen]; simp [applyState, mergeField, hie]
  have h1p : s1.patch_ops = some (.arr []) := by rw [hs1, hgen]; simp [applyState, mergeField]
  have h1r : s1.result = none := by rw [hs1, hgen]; simp [applyState, mergeField, hir]
  set s2 := applyState s1 { error := some "생성된 패치가 없습니다." } with hs2
  have hjudge : judge s1 = s2 := by
    unfold judge
    rw [h1e, h1p]
    simp [errTruthy, opsTruthy, truthy]
  have h2e : s2.error = some "생성된 패치가 없습니다." := by rw [hs2]; simp [applyState, mergeField]
  have h2r : s2.result = none := by rw [hs2]; simp [applyState, mergeField, h1r]
  have hroute : route s2 = .toEnd := by
    unfold route
    rw [h2e]
    rfl
  have hpipe : pipeline init (some (.arr [])) = s2 := by
    show (match route (judge s1) with
          | Route.toApply => applyState (judge s1) (apply_patch (judge s1))
          | Route.toEnd => judge s1) = s2
    rw [hjudge, hroute]
  refine ⟨?_, by rw [hpipe, h2e], by rw [hpipe, h2r]⟩
  rw [apply_patch_some_eq s doc (.arr []) hs hp]
  rfl

/-- Witness for the amended C6 theorem at the example document. -/
theorem empty_patch_amended_witness :
    apply_patch { src := some srcDoc, patch_ops := some (.arr []) } = { result := some srcDoc }
    ∧ (pipeline { src := some srcDoc } (some (.arr []))).error = some "생성된 패치가 없습니다."
    ∧ (pipeline { src := some srcDoc } (some (.arr []))).result = none :=
  empty_patch_amended { src := some srcDoc, patch_ops := some (.arr []) }
    { src := some srcDoc } srcDoc rfl rfl rfl rfl

/-- A `move` operation mapping with the given `from` and `path` strings. -/
def moveOpJ (fs ps : String) : JsonValue :=
  .obj [("op", .str "move"), ("from", .str fs), ("path", .str ps)]

/-- A `remove` operation mapping with the given `path` string. -/
def removeOpJ (fs : String) : JsonValue :=
  .obj [("op", .str "remove"), ("path", .str fs)]

/-- An `add` operation mapping with the given `path` string and value. -/
def addOpJ (ps : String) (v : JsonValue) : JsonValue :=
  .obj [("op", .str "add"), ("path", .str ps), ("value", v)]

/-- The array `[1,2]`, the document of the C9 counterexample. -/
def pairDoc : JsonValue := .arr [.num 1, .num 2]

/-- **C9 (counterexample).** On the document `[1,2]`, moving `/0` to
`/1` yields `[2,1]` (the element is removed first, shifting the array,
then appended at index 1), while copying `/0` to `/1` and then removing
`/0` yields `[1,2]`; `/1` is not a descendant of `/0`, the two outcomes
are both successes, and the results are not deep-equal — so the claimed
equivalence of `move` with `copy`-then-`remove` fails. -/
theorem move_differs_from_copy_remove :
    applyPatchEngine pairDoc (.arr [moveOpJ "/0" "/1"]) = .ok (.arr [.num 2, .num 1])
    ∧ applyPatchEngine pairDoc (.arr [.obj [("op", .str "copy"), ("from", .str "/0"), ("path", .str "/1")],
        removeOpJ "/0"]) = .ok (.arr [.num 1, .num 2])
    ∧ isProperAncestor ["0"] ["1"] = false
    ∧ parsePointer "/0" = some ["0"] ∧ parsePointer "/1" = some ["1"]
    ∧ (JsonValue.arr [.num 2, .num 1] = JsonValue.arr [.num 1, .num 2] → False) := by
  refine ⟨rfl, rfl, rfl, rfl, rfl, ?_⟩
  intro h
  simp at h

/-- Extract the parsed `from` pointer of a `move` operation mapping. -/
theorem getPtr_moveOpJ_from (fs ps : String) (A : List String)
    (hA : parsePointer fs = some A) : getPtr (moveOpJ fs ps) "from" = .ok A := by
  show (match parsePointer fs with
        | some ts => Except.ok ts
        | none => Except.error (EngineErr.mk .PointerNotFound ("invalid JSON pointer: " ++ fs)))
      = Except.ok A
  rw [hA]

/-- Extract the parsed `path` pointer of a `move` operation mapping. -/
theorem getPtr_moveOpJ_path (fs ps : String) (B : List String)
    (hB : parsePointer ps = some B) : getPtr (moveOpJ fs ps) "path" = .ok B := by
  show (match parsePointer ps with
        | some ts => Except.ok ts
        | none => Except.error (EngineErr.mk .PointerNotFound ("invalid JSON pointer: " ++ ps)))
      = Except.ok B
  rw [hB]

/-- Extract the parsed `path` pointer of a `remove` operation mapping. -/
theorem getPtr_removeOpJ_path (fs : String) (A : List String)
    (hA : parsePointer fs = some A) : getPtr (removeOpJ fs) "path" = .ok A := by
  show (match parsePointer fs with
        | some ts => Except.ok ts
        | none => Except.error (EngineErr.mk .PointerNotFound ("invalid JSON pointer: " ++ fs)))
      = Except.ok A
  rw [hA]

/-- Extract the parsed `path` pointer of an `add` operation mapping. -/
theorem getPtr_addOpJ_path (ps : String) (v : JsonValue) (B : List String)
    (hB : parsePointer ps = some B) : getPtr (addOpJ ps v) "path" = .ok B := by
  show (match parsePointer ps with
        | some ts => Except.ok ts
        | none => Except.error (EngineErr.mk .PointerNotFound ("invalid JSON pointer: " ++ ps)))
      = Except.ok B
  rw [hB]

/-- A `move` operation applies as: guard against moving into a
descendant, then resolve, remove at `from`, add at `path`. -/
theorem applyOp_moveOpJ (doc : JsonValue) (fs ps : String) (A B : List String)
    (hA : parsePointer fs = some A) (hB : parsePointer ps = some B) :
    applyOp doc (moveOpJ fs ps)
      = if isProperAncestor A B
        then .error ⟨.InvalidMove, "cannot move a value into its own descendant"⟩
        else (resolve doc A).bind fun v => (removeAt doc A).bind fun d2 => addAt d2 B v := by
  show ((getPtr (moveOpJ fs ps) "from").bind fun src =>
        (getPtr (moveOpJ fs ps) "path").bind fun dst =>
          if isProperAncestor src dst then
            Except.error ⟨.InvalidMove, "cannot move a value into its own descendant"⟩
          else (resolve doc src).bind fun v => (removeAt doc src).bind fun d2 => addAt d2 dst v) = _
  rw [getPtr_moveOpJ_from fs ps A hA, getPtr_moveOpJ_path fs ps B hB]
  rfl

/-- A `remove` operation applies as `removeAt` on the parsed pointer. -/
theorem applyOp_removeOpJ (doc : JsonValue) (fs : String) (A : List String)
    (hA : parsePointer fs = some A) :
    applyOp doc (removeOpJ fs) = removeAt doc A := by
  show ((getPtr (removeOpJ fs) "path").bind fun ptr => removeAt doc ptr) = _
  rw [getPtr_removeOpJ_path fs A hA]
  rfl

/-- An `add` operation applies as `addAt` of its value on the parsed
pointer. -/
theorem applyOp_addOpJ (doc : JsonValue) (ps : String) (B : List String) (v : JsonValue)
    (hB : parsePointer ps = some B) :
    applyOp doc (addOpJ ps v) = addAt doc B v := by
  show ((getPtr (addOpJ ps v) "path").bind fun ptr =>
        (getValue (addOpJ ps v)).bind fun w => addAt doc ptr w) = _
  rw [getPtr_addOpJ_path ps v B hB]
  rfl

/-- **C9 (amended).** A `move` from pointer A to pointer B is equivalent
to the two-operation patch `remove A` then `add B v` where `v` is the
value resolved at A beforehand (remove-then-add, §4.2) — same success
document, or failure of both (the reported failure index may differ: the
move reports index 0, the pair reports the failing step's index); and
when A is a strict ancestor of B (B a strict descendant of A) the move
fails with `InvalidMove` at index 0.  The original copy-then-remove
formulation is refuted by the counterexample. -/
theorem move_equiv_remove_then_add (doc : JsonValue) (fs ps : String)
    (A B : List String) (v : JsonValue)
    (hA : parsePointer fs = some A) (hB : parsePointer ps = some B) :
    (isProperAncestor A B = false → resolve doc A = .ok v →
      (applyPatchEngine doc (.arr [moveOpJ fs ps])).toOption
        = (applyPatchEngine doc (.arr [removeOpJ fs, addOpJ ps v])).toOption)
    ∧ (isProperAncestor A B = true →
        applyPatchEngine doc (.arr [moveOpJ fs ps])
          = .error ⟨some 0, .InvalidMove, "cannot move a value into its own descendant"⟩) := by
  have hval1 : applyPatchEngine doc (.arr [moveOpJ fs ps]) = applyOps doc [moveOpJ fs ps] 0 :=
    applyPatchEngine_arr_valid _ _ rfl
  have hval2 : applyPatchEngine doc (.arr [removeOpJ fs, addOpJ ps v])
      = applyOps doc [removeOpJ fs, addOpJ ps v] 0 :=
    applyPatchEngine_arr_valid _ _ rfl
  constructor
  · intro hanc hres
    rw [hval1, hval2]
    have hm : applyOp doc (moveOpJ fs ps)
        = (removeAt doc A).bind fun d2 => addAt d2 B v := by
      rw [applyOp_moveOpJ doc fs ps A B hA hB, hanc, hres]
      simp [Except.bind]
    have hrOp : applyOp doc (removeOpJ fs) = removeAt doc A :=
      applyOp_removeOpJ doc fs A hA
    cases hrm : removeAt doc A with
    | error e => simp [applyOps, hm, hrOp, hrm, Except.toOption, Except.bind]
    | ok d2 =>
        have haOp : applyOp d2 (addOpJ ps v) = addAt d2 B v :=
          applyOp_addOpJ d2 ps B v hB
        cases hadd : addAt d2 B v with
        | error e2 => simp [applyOps, hm, hrOp, hrm, haOp, hadd, Except.toOption, Except.bind]
        | ok dfin => simp [applyOps, hm, hrOp, hrm, haOp, hadd, Except.toOption, Except.bind]
  · intro hanc
    rw [hval1]
    have hm : applyOp doc (moveOpJ fs ps)
        = .error ⟨.InvalidMove, "cannot move a value into its own descendant"⟩ := by
      rw [applyOp_moveOpJ doc fs ps A B hA hB, hanc]
      simp
    simp [applyOps, hm]

/-- Witness for the amended C9 theorem: moving `/a` to `/b` in
`{"a":1}` agrees with removing `/a` and then adding the resolved value
at `/b`. -/
theorem move_equiv_remove_then_add_witness :
    (applyPatchEngine (JsonValue.obj [("a", .num 1)]) (.arr [moveOpJ "/a" "/b"])).toOption
      = (applyPatchEngine (JsonValue.obj [("a", .num 1)])
          (.arr [removeOpJ "/a", addOpJ "/b" (.num 1)])).toOption :=
  (move_equiv_remove_then_add (JsonValue.obj [("a", .num 1)]) "/a" "/b"
    ["a"] ["b"] (.num 1) rfl rfl).1 rfl rfl

end AIJsonEditor
